import Mathlib

/-!
Verification of the distributed gradient/parameter orchestration layer of the
mindscale repository against its natural-language specification.

The development shallowly embeds the Python sources:
  * mindformers/experimental/parallel_core/pynative/distributed/distributed_data_parallel.py
  * mindformers/experimental/parallel_core/pynative/optimizer/zero/adamw_zero.py
  * mindformers/experimental/distri_cores/tensor_parallel/collective_primitives.py
  * mindformers/experimental/distri_cores/grad_handler.py

Tensors are modelled as flat lists of rationals (or reals where a square root
is computed) together with an explicit shape and dtype; the runtime collective
primitives (all-reduce, all-gather, reduce-scatter), which the repository
treats as opaque calls into the host runtime, are given their standard
mathematical semantics over the per-rank inputs of the communication group.
-/

namespace Mindformers

/-- Tensor element dtypes that appear in the embedded code paths. -/
inductive Dtype
  | fp16
  | bf16
  | fp32
deriving DecidableEq, Repr

/-- A gradient-side tensor: a dtype together with its (flattened) payload.
Values are exact rationals, so dtype casts keep the payload unchanged. -/
structure GTensor where
  dtype : Dtype
  data : List ℚ
deriving DecidableEq, Repr

/-- Model of mindspore Tensor.astype: the dtype changes, the values do not
(values are exact in this model). -/
def GTensor.astype (t : GTensor) (d : Dtype) : GTensor :=
  { dtype := d, data := t.data }

/-- Model of mint.add on same-shape tensors: elementwise addition; the result
carries the first operand's dtype. -/
def mint_add (a b : GTensor) : GTensor :=
  { dtype := a.dtype, data := List.zipWith (fun x y => x + y) a.data b.data }

/-- Model of Tensor.copy_(src): the destination keeps its dtype and takes the
source values. -/
def GTensor.copyFrom (dst src : GTensor) : GTensor :=
  { dtype := dst.dtype, data := src.data }

/-- Model of ops.Tensor(0, dtype): a scalar zero tensor of the given dtype. -/
def opsTensorZero (d : Dtype) : GTensor :=
  { dtype := d, data := [0] }

/-- State of a ParamAndGradBuffer as far as the DistributedDataParallel driver
observes it.  Modelled from the spec: param_and_grad_buffer.py itself is not
among the provided sources, so its methods issue_grad_reduce,
final_grad_reduce and register_grad_ready are modelled as opaque
call-recording operations, which is all the claims about the driver need. -/
structure Buffer where
  grad_dtype : Dtype
  sync_enabled : Bool
  issue_calls : Nat
  final_calls : Nat
deriving DecidableEq, Repr

/-- Modelled from the spec: buffer.issue_grad_reduce() is recorded as a call. -/
def Buffer.issue_grad_reduce (b : Buffer) : Buffer :=
  { b with issue_calls := b.issue_calls + 1 }

/-- Modelled from the spec: buffer.final_grad_reduce() is recorded as a call. -/
def Buffer.final_grad_reduce (b : Buffer) : Buffer :=
  { b with final_calls := b.final_calls + 1 }

/-- The slice of DistributedDataParallelConfig used by the embedded paths. -/
structure DDPConfig where
  overlap_grad_reduce : Bool
deriving DecidableEq, Repr

/-- The per-parameter state manipulated by DistributedDataParallel:
requires_grad, the (optional) .grad attribute, the .main_grad accumulation
buffer and the grad_accumulated flag set in __init__. -/
structure Param where
  requires_grad : Bool
  dtype : Dtype
  grad : Option GTensor
  main_grad : GTensor
  grad_accumulated : Bool
deriving DecidableEq, Repr

/-- The attributes of a DistributedDataParallel instance that the embedded
methods read: the dense buffers, the expert-parallel buffers and the config. -/
structure DDPModel where
  buffers : List Buffer
  expert_parallel_buffers : List Buffer
  ddp_config : DDPConfig
deriving DecidableEq, Repr

/-- Python attribute lookup on a DistributedDataParallel instance, restricted
to the buffer-list attributes assigned in __init__.  A name that was never
assigned resolves to none (Python raises AttributeError). -/
def DDPModel.getattrBuffers (m : DDPModel) (name : String) : Option (List Buffer) :=
  if name = "buffers" then some m.buffers
  else if name = "expert_parallel_buffers" then some m.expert_parallel_buffers
  else none

/-- Embedding of DistributedDataParallel.issue_grad_reduce, exactly as
written in the source: it iterates self.buffers + self.expert_paralle_buffers
(note the spelling of the second attribute in the source) and calls
buffer.issue_grad_reduce() on each element. -/
def DDPModel.issue_grad_reduce (m : DDPModel) : Except String (List Buffer) :=
  match m.getattrBuffers "buffers" with
  | none => Except.error "AttributeError: buffers"
  | some bs =>
    match m.getattrBuffers "expert_paralle_buffers" with
    | none => Except.error "AttributeError: expert_paralle_buffers"
    | some es => Except.ok ((bs ++ es).map Buffer.issue_grad_reduce)

/-- Embedding of DistributedDataParallel.final_grad_reduce: it iterates
self.buffers + self.expert_parallel_buffers and calls
buffer.final_grad_reduce() on each element. -/
def DDPModel.final_grad_reduce (m : DDPModel) : Except String (List Buffer) :=
  match m.getattrBuffers "buffers" with
  | none => Except.error "AttributeError: buffers"
  | some bs =>
    match m.getattrBuffers "expert_parallel_buffers" with
    | none => Except.error "AttributeError: expert_parallel_buffers"
    | some es => Except.ok ((bs ++ es).map Buffer.final_grad_reduce)

/-- Embedding of DistributedDataParallel.enable_sync: sets sync_enabled on
every dense and every expert-parallel buffer. -/
def DDPModel.enable_sync (m : DDPModel) (e : Bool) : DDPModel :=
  { m with
    buffers := m.buffers.map (fun b => { b with sync_enabled := e }),
    expert_parallel_buffers :=
      m.expert_parallel_buffers.map (fun b => { b with sync_enabled := e }) }

/-- Embedding of the DistributedDataParallel.no_sync context manager: sync is
disabled, the body runs (returning a mutated instance and possibly an
exception), and the finally-block re-enables sync unconditionally. -/
def DDPModel.no_sync (m : DDPModel) (body : DDPModel → DDPModel × Option String) :
    DDPModel × Option String :=
  let m1 := m.enable_sync false
  let r := body m1
  ((r.1).enable_sync true, r.2)

/-- Embedding of DistributedDataParallel.register_hook_for_params: the hook is
registered exactly on the parameters with requires_grad set; the function
returns the list of parameters that receive a hook. -/
def register_hook_for_params (params : List Param) : List Param :=
  params.filter (fun p => p.requires_grad)

/-- Result of one firing of the closure built by _make_param_hook: the updated
parameter, whether buffer.register_grad_ready(param) was invoked, and the
tensor the hook returns. -/
structure HookResult where
  param : Param
  registered_ready : Bool
  ret : GTensor
deriving DecidableEq, Repr

/-- Embedding of the param_hook closure produced by
DistributedDataParallel._make_param_hook.  On a gradient grad it adds
grad.astype(buffer.grad_dtype) into param.main_grad via copy_ unless
param.grad_accumulated is set, invokes buffer.register_grad_ready(param) iff
ddp_config.overlap_grad_reduce, and returns param.grad if it is not None and
ops.Tensor(0, param.dtype) otherwise. -/
def param_hook (cfg : DDPConfig) (buffer : Buffer) (p : Param) (grad : GTensor) :
    HookResult :=
  let p1 :=
    if p.grad_accumulated then p
    else { p with
           main_grad := p.main_grad.copyFrom (mint_add p.main_grad (grad.astype buffer.grad_dtype)) }
  let registered := cfg.overlap_grad_reduce
  let ret :=
    match p.grad with
    | none => opsTensorZero p.dtype
    | some g => g
  ⟨p1, registered, ret⟩

/-!
The AdamW ZeRO optimizer (adamw_zero.py).  Tensors here carry an explicit
shape; collectives take the list of per-rank inputs of the data-parallel
group.  Parameters of rank at least one are assumed throughout, because the
source indexes param.shape[0] unconditionally.
-/

/-- ZeRO sharding levels of the AdamW optimizer. -/
inductive ZeroLevel
  | z1
  | z2
  | z3
deriving DecidableEq, Repr

/-- A value tensor: shape, dtype and flattened payload. -/
structure VTensor where
  shape : List Nat
  dtype : Dtype
  data : List ℚ
deriving DecidableEq, Repr

/-- First dimension of a shape, as the source writes param.shape[0]. -/
def shape0 (s : List Nat) : Nat :=
  s.headD 0

/-- Model of ops.cast: the dtype changes, the exact values do not. -/
def VTensor.castTo (t : VTensor) (d : Dtype) : VTensor :=
  { t with dtype := d }

/-- A model parameter as the optimizer sees it: its name and its shape. -/
structure ZParam where
  name : String
  shape : List Nat
deriving DecidableEq, Repr

/-- The attributes of an AdamW ZeRO optimizer instance that the embedded
methods read. -/
structure ZeroOptimizer where
  zero_level : ZeroLevel
  shard_size : Nat
  shard_id : Nat
  grad_allreduce_sum : Bool
  zero3_parameters : List String
  parameters : List ZParam
deriving DecidableEq, Repr

/-- Per-parameter value of the _parameter_splited flag computed by
AdamW._parameter_status_split: true exactly for a z3 parameter whose name is
in zero3_parameters. -/
def parameter_splited_of (opt : ZeroOptimizer) (p : ZParam) : Bool :=
  if opt.zero_level = ZeroLevel.z3 then decide (p.name ∈ opt.zero3_parameters) else false

/-- Per-parameter value of the _status_splited flag computed by
AdamW._parameter_status_split: under z3 the parameter must not be a zero3
parameter and its first dimension must divide evenly; otherwise (z1 and z2)
only the divisibility of the first dimension by shard_size is required. -/
def status_splited_of (opt : ZeroOptimizer) (p : ZParam) : Bool :=
  if opt.zero_level = ZeroLevel.z3 then
    if p.name ∈ opt.zero3_parameters then false
    else decide (shape0 p.shape % opt.shard_size = 0)
  else decide (shape0 p.shape % opt.shard_size = 0)

/-- Embedding of AdamW._parameter_status_split: the pair of the
_parameter_splited and _status_splited flag lists. -/
def parameter_status_split (opt : ZeroOptimizer) : List Bool × List Bool :=
  (opt.parameters.map (parameter_splited_of opt),
   opt.parameters.map (status_splited_of opt))

/-- Shape of the moment created by AdamW._init_momentum for one parameter:
the first dimension is divided by shard_size when the status is splited, and
the full parameter shape is kept otherwise.  Both moments1 and moments2 are
built this way (always in float32). -/
def momentum_shape (shard_size : Nat) (splited : Bool) (shape : List Nat) : List Nat :=
  if splited then (shape0 shape / shard_size) :: shape.tail else shape

/-- Embedding of AdamW._init_momentum: the list of moment shapes, one per
parameter. -/
def init_momentum (opt : ZeroOptimizer) (status_splited : List Bool) : List (List Nat) :=
  List.zipWith (fun p s => momentum_shape opt.shard_size s p.shape) opt.parameters status_splited

/-- Embedding of AdamW._init_all_gather_ops: starting from all-false flags,
the entry is set to true exactly where the status is splited. -/
def init_all_gather_ops (status_splited : List Bool) : List Bool :=
  status_splited.map (fun s => if s then true else false)

/-- Model of comm_func.all_gather_into_tensor over the per-rank inputs of the
communication group: concatenation along the first dimension. -/
def all_gather_into_tensor (group : List VTensor) : VTensor :=
  { shape := (group.map (fun t => shape0 t.shape)).sum :: (group.headD ⟨[], Dtype.fp32, []⟩).shape.tail,
    dtype := (group.headD ⟨[], Dtype.fp32, []⟩).dtype,
    data := (group.map (fun t => t.data)).flatten }

/-- Embedding of _update_params_opt_parallel for one parameter: when
all_gather is set, the shard-sized update is all-gathered over the group
(group_updates lists the per-rank updates); the update is then cast to the
parameter dtype if the dtypes differ, and assigned.  The first component is
the value the parameter holds afterwards, the second records whether an
all-gather was performed. -/
def update_params_opt_parallel (group_updates : List VTensor) (param update : VTensor)
    (all_gather : Bool) : VTensor × Bool :=
  let upd1 := if all_gather then all_gather_into_tensor group_updates else update
  let upd2 := if upd1.dtype ≠ param.dtype then upd1.castTo param.dtype else upd1
  (upd2, all_gather)

/-- Model of elementwise summation of the per-rank tensors of a group: the
semantics of all-reduce with the sum op. -/
def all_reduce_sum (group : List VTensor) : VTensor :=
  match group with
  | [] => ⟨[], Dtype.fp32, []⟩
  | t :: rest =>
    rest.foldl (fun acc u => { acc with data := List.zipWith (fun x y => x + y) acc.data u.data }) t

/-- Model of P.Split(0, shard_size) followed by selection of chunk shard_id:
an even split of the first dimension. -/
def split_select (shard_size shard_id : Nat) (t : VTensor) : VTensor :=
  let k := shape0 t.shape / shard_size
  let rowLen := t.shape.tail.prod
  { shape := k :: t.shape.tail, dtype := t.dtype,
    data := (t.data.drop (shard_id * (k * rowLen))).take (k * rowLen) }

/-- Model of comm_func.reduce_scatter_tensor over the per-rank inputs: the
elementwise sum, of which this rank keeps its shard of the first dimension. -/
def reduce_scatter_tensor (shard_size shard_id : Nat) (group : List VTensor) : VTensor :=
  split_select shard_size shard_id (all_reduce_sum group)

/-- Model of mint.div of a tensor by a scalar. -/
def mint_div (t : VTensor) (d : Nat) : VTensor :=
  { t with data := t.data.map (fun x => x / (d : ℚ)) }

/-- Embedding of the reduce_scatter_hook closure of
AdamW._regist_hook_for_params: reduce-scatter over the data-parallel group,
then division by shard_size unless grad_allreduce_op is sum. -/
def reduce_scatter_hook (shard_size shard_id : Nat) (grad_allreduce_sum : Bool)
    (group_grads : List VTensor) : VTensor :=
  let res := reduce_scatter_tensor shard_size shard_id group_grads
  if grad_allreduce_sum then res else mint_div res shard_size

/-- Embedding of the reduce_hook closure of AdamW._regist_hook_for_params:
all-reduce over the data-parallel group, then division by shard_size unless
grad_allreduce_op is sum. -/
def reduce_hook (shard_size : Nat) (grad_allreduce_sum : Bool)
    (group_grads : List VTensor) : VTensor :=
  let res := all_reduce_sum group_grads
  if grad_allreduce_sum then res else mint_div res shard_size

/-- Per-parameter hook selection of AdamW._regist_hook_for_params: true means
the registered hook is reduce_scatter_hook, false means reduce_hook. -/
def hook_select (opt : ZeroOptimizer) (parameter_splited status_splited : Bool) : Bool :=
  if (parameter_splited || status_splited)
      && (decide (opt.zero_level = ZeroLevel.z2) || decide (opt.zero_level = ZeroLevel.z3))
  then true else false

/-- Embedding of the selection loop of AdamW._regist_hook_for_params over all
parameters. -/
def regist_hook_for_params (opt : ZeroOptimizer)
    (parameter_splited status_splited : List Bool) : List Bool :=
  List.zipWith (hook_select opt) parameter_splited status_splited

/-- Embedding of _inner_grad_reduce_scatter: reduce-scatter when the gradient
or the parameter is splited, all-reduce otherwise; then division by
shard_size unless grad_allreduce_op is sum. -/
def inner_grad_reduce_scatter (shard_size shard_id : Nat) (grad_allreduce_sum : Bool)
    (group_grads : List VTensor) (grads_splited parameter_splited : Bool) : VTensor :=
  let g := if grads_splited || parameter_splited
           then reduce_scatter_tensor shard_size shard_id group_grads
           else all_reduce_sum group_grads
  if grad_allreduce_sum then g else mint_div g shard_size

/-!
Collective-communication wrapper cells (collective_primitives.py).  Each cell
stores the world size of its communication group; the runtime collective it
delegates to at world size greater than one is passed in as an opaque
function, exactly as the source treats ops.AllReduce, ops.AllGather and
ops.AlltoAll as opaque runtime primitives.  ops.stop_gradient is the
identity on the forward value.
-/

/-- Last dimension of a tensor, as the source writes input_.shape[-1]. -/
def VTensor.lastDim (t : VTensor) : Nat :=
  t.shape.getLast?.getD 0

/-- Chunks of length k of a list, with an explicit fuel argument bounding the
number of chunks (structural recursion; the fuel is always sufficient at the
call sites, which pass the list length). -/
def chunkListAux : Nat → Nat → List ℚ → List (List ℚ)
  | 0, _, _ => []
  | _ + 1, _, [] => []
  | m + 1, k, x :: xs => ((x :: xs).take k) :: chunkListAux m k ((x :: xs).drop k)

/-- Chunks of length k of a list (rows of a tensor whose last dimension is
k). -/
def chunkList (k : Nat) (l : List ℚ) : List (List ℚ) :=
  chunkListAux l.length k l

/-- Model of ops.split(t, size, axis=0): the first dimension is cut into
pieces of the given size, the last piece possibly smaller. -/
def splitAxis0 (t : VTensor) (size : Nat) : List VTensor :=
  let n := shape0 t.shape
  let rowLen := t.shape.tail.prod
  (List.range ((n + size - 1) / size)).map (fun j =>
    ⟨min size (n - j * size) :: t.shape.tail, t.dtype,
     (t.data.drop (j * (size * rowLen))).take (size * rowLen)⟩)

/-- Model of ops.cat on two tensors along the last axis: rows are
concatenated pairwise. -/
def cat2LastDim (a b : VTensor) : VTensor :=
  { shape := a.shape.dropLast ++ [a.lastDim + b.lastDim],
    dtype := a.dtype,
    data := (List.zipWith (fun r s => r ++ s)
      (chunkList a.lastDim a.data) (chunkList b.lastDim b.data)).flatten }

/-- Model of ops.cat(ts, axis=last): left fold of the binary concatenation;
on a one-element list it returns that tensor unchanged. -/
def catLastDim (ts : List VTensor) : VTensor :=
  match ts with
  | [] => ⟨[], Dtype.fp32, []⟩
  | t :: rest => rest.foldl cat2LastDim t

/-- Model of ops.cat(ts, axis=0): payloads are concatenated and first
dimensions added. -/
def catAxis0 (ts : List VTensor) : VTensor :=
  match ts with
  | [] => ⟨[], Dtype.fp32, []⟩
  | t :: _ =>
    ⟨(ts.map (fun u => shape0 u.shape)).sum :: t.shape.tail, t.dtype,
     (ts.map (fun u => u.data)).flatten⟩

/-- Model of ops.split(t, size, axis=1) on a two-dimensional tensor (the
source applies it right after a reshape to two dimensions): each row is cut
into pieces of the given size and the pieces of equal index are stacked. -/
def splitLastDim (t : VTensor) (size : Nat) : List VTensor :=
  let last := t.lastDim
  (List.range ((last + size - 1) / size)).map (fun j =>
    ⟨t.shape.dropLast ++ [min size (last - j * size)], t.dtype,
     ((chunkList last t.data).map (fun r => (r.drop (j * size)).take size)).flatten⟩)

/-- Model of input_.reshape(-1, input_.shape[-1]): the payload is unchanged
and the shape collapses to two dimensions. -/
def reshape2d (t : VTensor) : VTensor :=
  ⟨[t.shape.prod / t.lastDim, t.lastDim], t.dtype, t.data⟩

/-- Embedding of ReduceFromModelParallelRegion.construct: at world size one
the input is returned via ops.stop_gradient; otherwise the all-reduce
primitive of the tensor-parallel group is invoked. -/
def reduceFromModelParallelRegion_construct (world_size : Nat)
    (all_reduce : VTensor → VTensor) (input_ : VTensor) : VTensor :=
  if world_size = 1 then input_ else all_reduce input_

/-- Embedding of GatherFromModelParallelRegion.construct: the (gathered)
output is split along the first dimension into pieces of the local first
dimension and re-concatenated along the last dimension. -/
def gatherFromModelParallelRegion_construct (world_size : Nat)
    (all_gather : VTensor → VTensor) (input_ : VTensor) : VTensor :=
  let output := if world_size = 1 then input_ else all_gather input_
  catLastDim (splitAxis0 output (shape0 input_.shape))

/-- Embedding of AllToAllEven.construct: at world size one the input is
returned via ops.stop_gradient; otherwise the ops.AlltoAll primitive is
invoked. -/
def allToAllEven_construct (world_size : Nat)
    (all_to_all : VTensor → VTensor) (input_ : VTensor) : VTensor :=
  if world_size = 1 then input_ else all_to_all input_

/-- Embedding of ScatterToSequenceParallelRegion.construct: at world size one
the input is returned; otherwise the first dimension must divide evenly by
the world size (else ValueError) and this rank keeps its slice. -/
def scatterToSequenceParallelRegion_construct (world_size rank : Nat)
    (input_ : VTensor) : Except String VTensor :=
  if world_size = 1 then Except.ok input_
  else
    let dim_size := shape0 input_.shape
    if dim_size % world_size ≠ 0 then
      Except.error "ValueError: first dimension not divisible by tensor parallel size"
    else
      let local_dim_size := dim_size / world_size
      let rowLen := input_.shape.tail.prod
      Except.ok ⟨local_dim_size :: input_.shape.tail, input_.dtype,
        (input_.data.drop (rank * (local_dim_size * rowLen))).take (local_dim_size * rowLen)⟩

/-- Embedding of AllToAllSP2HP.construct: the input is reshaped to two
dimensions, split along the last dimension into world_size pieces, the
pieces concatenated along the first dimension, and, at world size greater
than one only, exchanged through the inner AllToAllEven cell. -/
def allToAllSP2HP_construct (world_size : Nat)
    (all_to_all : VTensor → VTensor) (input_ : VTensor) : VTensor :=
  let r := reshape2d input_
  let split_tensors := splitLastDim r (r.lastDim / world_size)
  let concat_tensor := catAxis0 split_tensors
  if world_size = 1 then concat_tensor else all_to_all concat_tensor

/-!
GradAccumulator (grad_handler.py).  A gradient tuple is modelled as one
flattened list of rationals; the elementwise runtime ops (ZerosLike,
assign_add, division by the accumulation step) become map and zipWith.
The Python call raising an exception is an Except.error value.
-/

/-- The mutable state of a GradAccumulator instance. -/
structure GradAccumulator where
  counter : Nat
  accumulate_step : Nat
  is_mean_op : Bool
  has_init : Bool
  need_clear : Bool
  inner_grads : List ℚ
deriving DecidableEq, Repr

/-- Embedding of GradAccumulator.__init__: micro_batch_num is checked to be a
non-negative integer only (zero passes), op must be mean or sum. -/
def gradAccumulatorInit (micro_batch_num : Int) (op : String) :
    Except String GradAccumulator :=
  if micro_batch_num < 0 then
    Except.error "ValueError: accumulate_step must be non-negative"
  else if op ≠ "mean" ∧ op ≠ "sum" then
    Except.error "NotImplementedError: op is not supported in GradAccumulator yet"
  else
    Except.ok ⟨0, micro_batch_num.toNat, decide (op = "mean"), false, false, []⟩

/-- Embedding of GradAccumulator.__call__: lazily initialise the inner
accumulator with zeros like the gradients, clear it when the previous call
returned, add the gradients in, bump the counter, and test the counter
against the accumulation step; the modulo raises ZeroDivisionError when
accumulate_step is zero.  Returns the optional output together with the
updated state. -/
def gradAccumulatorCall (st : GradAccumulator) (grads : List ℚ) :
    Except String (Option (List ℚ) × GradAccumulator) :=
  let inner0 := if st.has_init then st.inner_grads else grads.map (fun _ => 0)
  let inner1 := if st.need_clear then inner0.map (fun _ => 0) else inner0
  let inner2 := List.zipWith (fun a b => a + b) inner1 grads
  let counter := st.counter + 1
  if st.accumulate_step = 0 then
    Except.error "ZeroDivisionError: integer modulo by zero"
  else if counter % st.accumulate_step = 0 then
    let inner3 :=
      if st.is_mean_op then inner2.map (fun x => x / (st.accumulate_step : ℚ)) else inner2
    Except.ok (some inner3,
      { st with counter := counter, has_init := true, need_clear := true,
                inner_grads := inner3 })
  else
    Except.ok (none,
      { st with counter := counter, has_init := true, need_clear := false,
                inner_grads := inner2 })

/-- A whole training run: the accumulator is called once per micro-batch
gradient list, collecting the outputs. -/
def gradAccumulatorRun (st : GradAccumulator) :
    List (List ℚ) → Except String (List (Option (List ℚ)) × GradAccumulator)
  | [] => Except.ok ([], st)
  | g :: gs =>
    match gradAccumulatorCall st g with
    | Except.error e => Except.error e
    | Except.ok (o, st1) =>
      match gradAccumulatorRun st1 gs with
      | Except.error e => Except.error e
      | Except.ok (os, st2) => Except.ok (o :: os, st2)

/-- Elementwise sum of the micro-batch gradients with indices in [a, b). -/
def sumWindow (all : List (List ℚ)) (l a b : Nat) : List ℚ :=
  ((all.take b).drop a).foldl (fun acc g => List.zipWith (fun x y => x + y) acc g)
    (List.replicate l 0)

/-- The value the accumulator returns at a window boundary: the window sum,
divided elementwise by the accumulation step when the op is mean. -/
def accOutput (mean : Bool) (m : Nat) (v : List ℚ) : List ℚ :=
  if mean then v.map (fun x => x / (m : ℚ)) else v

/-- The reachable-state invariant of a GradAccumulator after k calls with
step m on gradient lists of length l drawn from the run all. -/
def accInvariant (m l : Nat) (mean : Bool) (all : List (List ℚ)) (k : Nat)
    (st : GradAccumulator) : Prop :=
  st.counter = k ∧
  st.accumulate_step = m ∧
  st.is_mean_op = mean ∧
  st.has_init = decide (0 < k) ∧
  (0 < k → st.inner_grads.length = l) ∧
  st.need_clear = (decide (0 < k) && decide (k % m = 0)) ∧
  (0 < k → k % m ≠ 0 → st.inner_grads = sumWindow all l (k - k % m) k)

/-!
ClipGlobalNorm (grad_handler.py).  The norm computation takes a real square
root, so this part of the model lives over the reals; a gradient tensor is a
flattened list of reals, and parameter names are character lists so that the
source's substring tests are exact.  The all-reduce of the squared sum over
the reduce communication group is modelled by the contribution of the other
ranks, added exactly when the group has more than one member.
-/

/-- A parameter as ClipGlobalNorm sees it: its name. -/
structure NParam where
  name : List Char
deriving DecidableEq, Repr

/-- The attributes of a ClipGlobalNorm cell read by the embedded methods. -/
structure ClipGlobalNorm where
  params : List NParam
  clip_value : ℝ
  norm_type : String
  rank_id : Nat
  group_size : Nat
  other_ranks_square : ℝ

/-- The duplicate-gradient test of ClipGlobalNorm.get_grads: the name
contains norm, mlp.projection.bias or attention.out_proj.bias. -/
def is_duplicate_grad (p : NParam) : Bool :=
  decide ((String.toList "norm") <:+: p.name) ||
  decide ((String.toList "mlp.projection.bias") <:+: p.name) ||
  decide ((String.toList "attention.out_proj.bias") <:+: p.name)

/-- Embedding of ClipGlobalNorm.get_grads: each gradient is kept unless its
parameter is a duplicate, in which case only tensor-parallel rank zero keeps
it. -/
def get_grads (c : ClipGlobalNorm) (grads : List (List ℝ)) : List (List ℝ) :=
  (c.params.zip grads).filterMap (fun pg =>
    if is_duplicate_grad pg.1 then
      (if c.rank_id = 0 then some pg.2 else none)
    else some pg.2)

/-- Embedding of ClipGlobalNorm.get_grad_norm_fp32 composed of get_square_sum
and ops.addn: the squared sums of the gradients are added, all-reduced over
the communication group when it has more than one member, and rooted; a norm
type other than l2 raises NotImplementedError. -/
noncomputable def get_grad_norm_fp32 (c : ClipGlobalNorm) (grads : List (List ℝ)) :
    Except String ℝ :=
  if c.norm_type = "l2" then
    let square_reduce_sum := (grads.map (fun g => (g.map (fun x => x * x)).sum)).sum
    let square_reduce_sum :=
      if 1 < c.group_size then square_reduce_sum + c.other_ranks_square
      else square_reduce_sum
    Except.ok (Real.sqrt square_reduce_sum)
  else Except.error "NotImplementedError: for global norm, l2 norm only support now."

/-- Embedding of ClipGlobalNorm.construct: the total norm is computed from the
filtered pre-clip gradients, and all gradients are scaled in place by
clip_value / (total_norm + 1e-6) exactly when that coefficient is below one;
the total norm is returned. -/
noncomputable def ClipGlobalNorm.construct (c : ClipGlobalNorm) (grads : List (List ℝ)) :
    Except String (List (List ℝ) × ℝ) :=
  let norm_grads := get_grads c grads
  match get_grad_norm_fp32 c norm_grads with
  | Except.error e => Except.error e
  | Except.ok total_norm =>
    let clip_coeff := c.clip_value / (total_norm + 1.0e-6)
    if clip_coeff < 1.0 then
      Except.ok (grads.map (fun g => g.map (fun x => x * clip_coeff)), total_norm)
    else
      Except.ok (grads, total_norm)

/-- C2: after construction, a backward hook is registered exactly on the
parameters with requires_grad set; when the hook fires with gradient g on a
parameter whose grad_accumulated flag is false, it writes into param.main_grad
the elementwise sum of main_grad and g cast to the owning buffer grad dtype,
and it returns param.grad when that is not None, and a scalar zero tensor of
the parameter dtype otherwise. -/
theorem ddp_hook_registration_and_behavior :
    (∀ (ps : List Param) (p : Param),
        p ∈ register_hook_for_params ps ↔ p ∈ ps ∧ p.requires_grad = true) ∧
    (∀ (cfg : DDPConfig) (buf : Buffer) (p : Param) (g : GTensor),
        p.grad_accumulated = false →
        (param_hook cfg buf p g).param.main_grad =
          { dtype := p.main_grad.dtype,
            data := List.zipWith (fun x y => x + y) p.main_grad.data
              ((g.astype buf.grad_dtype)).data }) ∧
    (∀ (cfg : DDPConfig) (buf : Buffer) (p : Param) (g : GTensor),
        (p.grad = none → (param_hook cfg buf p g).ret = opsTensorZero p.dtype) ∧
        (∀ t, p.grad = some t → (param_hook cfg buf p g).ret = t)) := by
  refine ⟨?_, ?_, ?_⟩
  · intro ps p
    simp [register_hook_for_params, List.mem_filter]
  · intro cfg buf p g hacc
    simp [param_hook, hacc, GTensor.copyFrom, mint_add]
  · intro cfg buf p g
    constructor
    · intro hg
      simp [param_hook, hg]
    · intro t hg
      simp [param_hook, hg]

/-- Witness for ddp_hook_registration_and_behavior at a concrete configuration,
parameter and gradient. -/
theorem ddp_hook_registration_and_behavior_witness :
    (⟨true, Dtype.fp16, none, ⟨Dtype.fp32, [1, 2]⟩, false⟩ : Param) ∈
      register_hook_for_params [⟨true, Dtype.fp16, none, ⟨Dtype.fp32, [1, 2]⟩, false⟩] ∧
    (param_hook ⟨true⟩ ⟨Dtype.fp32, true, 0, 0⟩
        ⟨true, Dtype.fp16, none, ⟨Dtype.fp32, [1, 2]⟩, false⟩
        ⟨Dtype.fp16, [10, 20]⟩).param.main_grad =
      { dtype := Dtype.fp32,
        data := List.zipWith (fun x y => x + y) [(1 : ℚ), 2]
          ((GTensor.astype ⟨Dtype.fp16, [10, 20]⟩ Dtype.fp32)).data } ∧
    (param_hook ⟨true⟩ ⟨Dtype.fp32, true, 0, 0⟩
        ⟨true, Dtype.fp16, none, ⟨Dtype.fp32, [1, 2]⟩, false⟩
        ⟨Dtype.fp16, [10, 20]⟩).ret = opsTensorZero Dtype.fp16 := by
  refine ⟨?_, ?_, ?_⟩
  · exact ((ddp_hook_registration_and_behavior.1 _ _).2 (by simp))
  · exact ddp_hook_registration_and_behavior.2.1 ⟨true⟩ ⟨Dtype.fp32, true, 0, 0⟩
      ⟨true, Dtype.fp16, none, ⟨Dtype.fp32, [1, 2]⟩, false⟩ ⟨Dtype.fp16, [10, 20]⟩ rfl
  · exact (ddp_hook_registration_and_behavior.2.2 ⟨true⟩ ⟨Dtype.fp32, true, 0, 0⟩
      ⟨true, Dtype.fp16, none, ⟨Dtype.fp32, [1, 2]⟩, false⟩ ⟨Dtype.fp16, [10, 20]⟩).1 rfl

/-- C3: one firing of the param hook invokes buffer.register_grad_ready(param)
if and only if ddp_config.overlap_grad_reduce is set; with overlap disabled
the hook schedules no communication. -/
theorem param_hook_register_grad_ready_iff (cfg : DDPConfig) (buf : Buffer)
    (p : Param) (g : GTensor) :
    (param_hook cfg buf p g).registered_ready = true ↔
      cfg.overlap_grad_reduce = true := by
  simp [param_hook]

/-- C8: after no_sync exits, whatever the body did to the instance and whether
or not it raised, every dense and every expert-parallel buffer has
sync_enabled set to true; the prior value is not restored. -/
theorem no_sync_restores_sync_enabled (m : DDPModel)
    (body : DDPModel → DDPModel × Option String) (b : Buffer)
    (hb : b ∈ (m.no_sync body).1.buffers ∨
          b ∈ (m.no_sync body).1.expert_parallel_buffers) :
    b.sync_enabled = true := by
  rcases hb with hb | hb
  · simp only [DDPModel.no_sync, DDPModel.enable_sync, List.mem_map] at hb
    obtain ⟨c, _, hc⟩ := hb
    rw [← hc]
  · simp only [DDPModel.no_sync, DDPModel.enable_sync, List.mem_map] at hb
    obtain ⟨c, _, hc⟩ := hb
    rw [← hc]

/-- Witness for no_sync_restores_sync_enabled: a body that raises and leaves a
buffer with sync disabled still yields sync_enabled buffers on exit. -/
theorem no_sync_restores_sync_enabled_witness :
    (⟨Dtype.fp32, true, 0, 0⟩ : Buffer).sync_enabled = true := by
  exact no_sync_restores_sync_enabled
    ⟨[⟨Dtype.fp32, false, 0, 0⟩], [], ⟨false⟩⟩
    (fun s => (s, some "RuntimeError"))
    ⟨Dtype.fp32, true, 0, 0⟩
    (by decide)

/-- C1: the grad-reduce drivers do not both iterate all buffers without error.
final_grad_reduce does invoke buffer.final_grad_reduce() on every dense and
every expert-parallel buffer, but issue_grad_reduce reads the attribute
expert_paralle_buffers, which no __init__ ever assigns (the assigned
attribute is expert_parallel_buffers), so on every instance it raises
AttributeError before touching any expert-parallel buffer. -/
theorem issue_grad_reduce_always_raises (m : DDPModel) :
    m.issue_grad_reduce = Except.error "AttributeError: expert_paralle_buffers" ∧
    m.final_grad_reduce =
      Except.ok ((m.buffers ++ m.expert_parallel_buffers).map Buffer.final_grad_reduce) := by
  constructor
  · rfl
  · rfl

/-- C4: under zero_level z1 or z2, a parameter's optimizer state is
partitioned iff its first dimension is divisible by the data-parallel shard
size; the moment of a partitioned parameter has first dimension
shape0 / shard_size and unchanged trailing dimensions, and the moment of an
unpartitioned parameter has exactly the full parameter shape.  This applies
to moments1 and moments2 alike, both being built by _init_momentum. -/
theorem zero_momentum_partition (opt : ZeroOptimizer)
    (hz : opt.zero_level = ZeroLevel.z1 ∨ opt.zero_level = ZeroLevel.z2)
    (p : ZParam) (_hp : p ∈ opt.parameters)
    (n : Nat) (rest : List Nat) (hshape : p.shape = n :: rest) :
    (parameter_status_split opt).2 = opt.parameters.map (status_splited_of opt) ∧
    init_momentum opt (opt.parameters.map (status_splited_of opt)) =
      opt.parameters.map
        (fun q => momentum_shape opt.shard_size (status_splited_of opt q) q.shape) ∧
    (status_splited_of opt p = true ↔ n % opt.shard_size = 0) ∧
    (n % opt.shard_size = 0 →
      momentum_shape opt.shard_size (status_splited_of opt p) p.shape =
        (n / opt.shard_size) :: rest) ∧
    (n % opt.shard_size ≠ 0 →
      momentum_shape opt.shard_size (status_splited_of opt p) p.shape = p.shape) := by
  have hz3 : opt.zero_level ≠ ZeroLevel.z3 := by
    rcases hz with h | h <;> rw [h] <;> intro hc <;> cases hc
  have hstat : status_splited_of opt p = decide (n % opt.shard_size = 0) := by
    simp [status_splited_of, hz3, hshape, shape0]
  refine ⟨rfl, ?_, ?_, ?_, ?_⟩
  · unfold init_momentum
    rw [List.zipWith_map_right, List.zipWith_same]
  · rw [hstat]
    simp
  · intro hdiv
    rw [hstat]
    simp [momentum_shape, hdiv, hshape, shape0]
  · intro hdiv
    rw [hstat]
    simp [momentum_shape, hdiv, hshape, shape0]

/-- Witness for zero_momentum_partition: a z1 optimizer with shard size 2 and
one 4 by 3 parameter, whose moment is 2 by 3; and divisibility is decided on
the first dimension. -/
theorem zero_momentum_partition_witness :
    (parameter_status_split ⟨ZeroLevel.z1, 2, 0, true, [], [⟨"w", [4, 3]⟩]⟩).2 =
      List.map (status_splited_of ⟨ZeroLevel.z1, 2, 0, true, [], [⟨"w", [4, 3]⟩]⟩)
        [⟨"w", [4, 3]⟩] ∧
    init_momentum ⟨ZeroLevel.z1, 2, 0, true, [], [⟨"w", [4, 3]⟩]⟩
        (List.map (status_splited_of ⟨ZeroLevel.z1, 2, 0, true, [], [⟨"w", [4, 3]⟩]⟩)
          [⟨"w", [4, 3]⟩]) =
      List.map
        (fun q => momentum_shape 2
          (status_splited_of ⟨ZeroLevel.z1, 2, 0, true, [], [⟨"w", [4, 3]⟩]⟩ q) q.shape)
        [⟨"w", [4, 3]⟩] ∧
    (status_splited_of ⟨ZeroLevel.z1, 2, 0, true, [], [⟨"w", [4, 3]⟩]⟩ ⟨"w", [4, 3]⟩ = true ↔
      4 % 2 = 0) ∧
    (4 % 2 = 0 →
      momentum_shape 2
        (status_splited_of ⟨ZeroLevel.z1, 2, 0, true, [], [⟨"w", [4, 3]⟩]⟩ ⟨"w", [4, 3]⟩)
        [4, 3] = [4 / 2, 3]) ∧
    (4 % 2 ≠ 0 →
      momentum_shape 2
        (status_splited_of ⟨ZeroLevel.z1, 2, 0, true, [], [⟨"w", [4, 3]⟩]⟩ ⟨"w", [4, 3]⟩)
        [4, 3] = [4, 3]) :=
  zero_momentum_partition ⟨ZeroLevel.z1, 2, 0, true, [], [⟨"w", [4, 3]⟩]⟩
    (Or.inl rfl) ⟨"w", [4, 3]⟩ (by decide) 4 [3] rfl

/-- Helper: casting a tensor to the parameter dtype when the dtypes differ
keeps the shape. -/
theorem castIfNeeded_shape (t p : VTensor) :
    (if t.dtype ≠ p.dtype then t.castTo p.dtype else t).shape = t.shape := by
  by_cases h : t.dtype ≠ p.dtype
  · rw [if_pos h]
    rfl
  · rw [if_neg h]

/-- Helper: casting a tensor to the parameter dtype when the dtypes differ
keeps the payload. -/
theorem castIfNeeded_data (t p : VTensor) :
    (if t.dtype ≠ p.dtype then t.castTo p.dtype else t).data = t.data := by
  by_cases h : t.dtype ≠ p.dtype
  · rw [if_pos h]
    rfl
  · rw [if_neg h]

/-- Helper: after the conditional cast the dtype is the parameter dtype. -/
theorem castIfNeeded_dtype (t p : VTensor) :
    (if t.dtype ≠ p.dtype then t.castTo p.dtype else t).dtype = p.dtype := by
  by_cases h : t.dtype ≠ p.dtype
  · rw [if_pos h]
    rfl
  · rw [if_neg h]
    exact not_not.mp h

/-- C5: after the optimizer step, the per-parameter update path of construct
reconstructs parameters shard-aware.  The all-gather flag equals the
status-splited flag; a parameter whose state was partitioned has its
shard-sized update all-gathered over the data-parallel group, cast to the
parameter dtype, and assigned, recovering the original full first dimension;
a parameter whose state was not partitioned is assigned its update directly,
with no all-gather. -/
theorem zero_update_params_reconstruction :
    (∀ status_splited : List Bool, init_all_gather_ops status_splited = status_splited) ∧
    (∀ (shard_size : Nat) (group_updates : List VTensor) (param update : VTensor)
        (n : Nat) (rest : List Nat),
        0 < shard_size →
        param.shape = n :: rest →
        n % shard_size = 0 →
        group_updates.length = shard_size →
        (∀ u ∈ group_updates, u.shape = (n / shard_size) :: rest) →
        (update_params_opt_parallel group_updates param update true).1.shape = n :: rest ∧
        (update_params_opt_parallel group_updates param update true).1.dtype = param.dtype ∧
        (update_params_opt_parallel group_updates param update true).2 = true) ∧
    (∀ (group_updates : List VTensor) (param update : VTensor),
        (update_params_opt_parallel group_updates param update false).1.data = update.data ∧
        (update_params_opt_parallel group_updates param update false).1.shape = update.shape ∧
        (update_params_opt_parallel group_updates param update false).1.dtype = param.dtype ∧
        (update_params_opt_parallel group_updates param update false).2 = false) := by
  refine ⟨?_, ?_, ?_⟩
  · intro ss
    induction ss with
    | nil => rfl
    | cons s t ih =>
      cases s
      · show false :: init_all_gather_ops t = false :: t
        rw [ih]
      · show true :: init_all_gather_ops t = true :: t
        rw [ih]
  · intro shard_size group_updates param update n rest hpos hpshape hdiv hlen hshapes
    have hne : group_updates ≠ [] := by
      intro hnil
      rw [hnil] at hlen
      simp at hlen
      omega
    obtain ⟨u, us, rfl⟩ : ∃ v vs, group_updates = v :: vs := by
      match group_updates, hne with
      | v :: vs, _ => exact ⟨v, vs, rfl⟩
    have hgshape : (all_gather_into_tensor (u :: us)).shape = n :: rest := by
      have hconst : (u :: us).map (fun t => shape0 t.shape) =
          List.replicate ((u :: us).map (fun t => shape0 t.shape)).length
            (n / shard_size) := by
        apply List.eq_replicate_of_mem
        intro x hx
        obtain ⟨w, hw, hwx⟩ := List.mem_map.mp hx
        rw [← hwx, hshapes w hw]
        rfl
      rw [List.length_map, hlen] at hconst
      have hsum : ((u :: us).map (fun t => shape0 t.shape)).sum = n := by
        rw [hconst, List.sum_replicate, smul_eq_mul]
        exact Nat.mul_div_cancel' (Nat.dvd_of_mod_eq_zero hdiv)
      have hu := hshapes u (by simp)
      show ((u :: us).map (fun t => shape0 t.shape)).sum
          :: ((u :: us).headD ⟨[], Dtype.fp32, []⟩).shape.tail = n :: rest
      have hhd : ((u :: us).headD ⟨[], Dtype.fp32, []⟩) = u := rfl
      rw [hsum, hhd, hu]
      rfl
    refine ⟨?_, ?_, rfl⟩
    · show (if (all_gather_into_tensor (u :: us)).dtype ≠ param.dtype
            then (all_gather_into_tensor (u :: us)).castTo param.dtype
            else all_gather_into_tensor (u :: us)).shape = n :: rest
      rw [castIfNeeded_shape, hgshape]
    · exact castIfNeeded_dtype (all_gather_into_tensor (u :: us)) param
  · intro group_updates param update
    exact ⟨castIfNeeded_data update param, castIfNeeded_shape update param,
      castIfNeeded_dtype update param, rfl⟩

/-- Witness for zero_update_params_reconstruction: shard size 2, a 4 by 3
parameter in fp16 whose two per-rank fp32 updates of shape 2 by 3 are
gathered back to shape 4 by 3; and an unpartitioned parameter assigned
directly. -/
theorem zero_update_params_reconstruction_witness :
    init_all_gather_ops [true, false] = [true, false] ∧
    ((update_params_opt_parallel
        [⟨[2, 3], Dtype.fp32, [0, 0, 0, 0, 0, 0]⟩, ⟨[2, 3], Dtype.fp32, [1, 1, 1, 1, 1, 1]⟩]
        ⟨[4, 3], Dtype.fp16, []⟩ ⟨[2, 3], Dtype.fp32, []⟩ true).1.shape = 4 :: [3] ∧
      (update_params_opt_parallel
        [⟨[2, 3], Dtype.fp32, [0, 0, 0, 0, 0, 0]⟩, ⟨[2, 3], Dtype.fp32, [1, 1, 1, 1, 1, 1]⟩]
        ⟨[4, 3], Dtype.fp16, []⟩ ⟨[2, 3], Dtype.fp32, []⟩ true).1.dtype =
          (⟨[4, 3], Dtype.fp16, []⟩ : VTensor).dtype ∧
      (update_params_opt_parallel
        [⟨[2, 3], Dtype.fp32, [0, 0, 0, 0, 0, 0]⟩, ⟨[2, 3], Dtype.fp32, [1, 1, 1, 1, 1, 1]⟩]
        ⟨[4, 3], Dtype.fp16, []⟩ ⟨[2, 3], Dtype.fp32, []⟩ true).2 = true) ∧
    ((update_params_opt_parallel [] ⟨[4, 3], Dtype.fp16, []⟩
        ⟨[4, 3], Dtype.fp32, [7]⟩ false).1.data = (⟨[4, 3], Dtype.fp32, [7]⟩ : VTensor).data ∧
      (update_params_opt_parallel [] ⟨[4, 3], Dtype.fp16, []⟩
        ⟨[4, 3], Dtype.fp32, [7]⟩ false).1.shape = (⟨[4, 3], Dtype.fp32, [7]⟩ : VTensor).shape ∧
      (update_params_opt_parallel [] ⟨[4, 3], Dtype.fp16, []⟩
        ⟨[4, 3], Dtype.fp32, [7]⟩ false).1.dtype = (⟨[4, 3], Dtype.fp16, []⟩ : VTensor).dtype ∧
      (update_params_opt_parallel [] ⟨[4, 3], Dtype.fp16, []⟩
        ⟨[4, 3], Dtype.fp32, [7]⟩ false).2 = false) :=
  ⟨zero_update_params_reconstruction.1 [true, false],
   zero_update_params_reconstruction.2.1 2
     [⟨[2, 3], Dtype.fp32, [0, 0, 0, 0, 0, 0]⟩, ⟨[2, 3], Dtype.fp32, [1, 1, 1, 1, 1, 1]⟩]
     ⟨[4, 3], Dtype.fp16, []⟩ ⟨[2, 3], Dtype.fp32, []⟩ 4 [3]
     (by decide) rfl (by decide) (by decide) (by decide),
   zero_update_params_reconstruction.2.2 [] ⟨[4, 3], Dtype.fp16, []⟩ ⟨[4, 3], Dtype.fp32, [7]⟩⟩

/-- C6: gradient reduction in the ZeRO optimizer selects the collective by
shard status: the registered hook is the reduce-scatter hook exactly when the
parameter or its optimizer state is partitioned and zero_level is z2 or z3,
and the all-reduce hook otherwise; _inner_grad_reduce_scatter makes the same
selection from its two flags; and in either hook the reduced gradient is
divided by shard_size exactly when grad_allreduce_op is mean (not sum). -/
theorem zero_grad_reduce_selection :
    (∀ (opt : ZeroOptimizer) (ps ss : Bool),
        hook_select opt ps ss = true ↔
          ((ps = true ∨ ss = true) ∧
            (opt.zero_level = ZeroLevel.z2 ∨ opt.zero_level = ZeroLevel.z3))) ∧
    (∀ (opt : ZeroOptimizer) (psl ssl : List Bool),
        regist_hook_for_params opt psl ssl = List.zipWith (hook_select opt) psl ssl) ∧
    (∀ (shard_size shard_id : Nat) (group : List VTensor),
        reduce_scatter_hook shard_size shard_id true group =
          reduce_scatter_tensor shard_size shard_id group ∧
        reduce_scatter_hook shard_size shard_id false group =
          mint_div (reduce_scatter_tensor shard_size shard_id group) shard_size ∧
        reduce_hook shard_size true group = all_reduce_sum group ∧
        reduce_hook shard_size false group =
          mint_div (all_reduce_sum group) shard_size) ∧
    (∀ (shard_size shard_id : Nat) (s : Bool) (group : List VTensor)
        (gs psb : Bool),
        inner_grad_reduce_scatter shard_size shard_id s group gs psb =
          (let g := if gs = true ∨ psb = true
                    then reduce_scatter_tensor shard_size shard_id group
                    else all_reduce_sum group
           if s then g else mint_div g shard_size)) := by
  refine ⟨?_, ?_, ?_, ?_⟩
  · intro opt ps ss
    cases ps <;> cases ss <;> simp [hook_select]
  · intro opt psl ssl
    rfl
  · intro shard_size shard_id group
    exact ⟨rfl, rfl, rfl, rfl⟩
  · intro shard_size shard_id s group gs psb
    cases gs <;> cases psb <;> cases s <;> simp [inner_grad_reduce_scatter]

/-- Helper: with sufficient fuel, the chunks of a list flatten back to the
list, for positive chunk length. -/
theorem chunkListAux_flatten (k : Nat) (hk : 0 < k) :
    ∀ (m : Nat) (l : List ℚ), l.length ≤ m → (chunkListAux m k l).flatten = l := by
  intro m
  induction m with
  | zero =>
    intro l hl
    have : l = [] := List.eq_nil_of_length_eq_zero (Nat.le_zero.mp hl)
    rw [this]
    rfl
  | succ m ih =>
    intro l hl
    match l with
    | [] => rfl
    | x :: xs =>
      show ((x :: xs).take k) ++ (chunkListAux m k ((x :: xs).drop k)).flatten = x :: xs
      rw [ih ((x :: xs).drop k) (by
        rw [List.length_drop]
        simp only [List.length_cons] at hl ⊢
        omega)]
      exact List.take_append_drop k (x :: xs)

/-- Helper: the chunks of a list flatten back to the list, for positive chunk
length. -/
theorem chunkList_flatten (k : Nat) (hk : 0 < k) (l : List ℚ) :
    (chunkList k l).flatten = l :=
  chunkListAux_flatten k hk l.length l (le_refl _)

/-- Helper: every chunk produced by chunkListAux has length at most k. -/
theorem chunkListAux_length_le (k : Nat) :
    ∀ (m : Nat) (l : List ℚ) (r : List ℚ), r ∈ chunkListAux m k l → r.length ≤ k := by
  intro m
  induction m with
  | zero =>
    intro l r hr
    cases hr
  | succ m ih =>
    intro l r hr
    match l with
    | [] => cases hr
    | x :: xs =>
      rcases List.mem_cons.mp hr with h | h
      · rw [h]
        simp [List.length_take]
      · exact ih _ r h

/-- Helper: List.range 1 is the singleton list of zero. -/
theorem list_range_one : List.range 1 = [0] := by
  decide

/-- Helper: splitting the last dimension into pieces of the full last
dimension yields a single piece carrying the whole payload. -/
theorem splitLastDim_lastDim (t : VTensor) (h : 0 < t.lastDim) :
    splitLastDim t t.lastDim =
      [⟨t.shape.dropLast ++ [t.lastDim], t.dtype, t.data⟩] := by
  have hdiv : (t.lastDim + t.lastDim - 1) / t.lastDim = 1 :=
    Nat.div_eq_of_lt_le (by omega) (by omega)
  show (List.range ((t.lastDim + t.lastDim - 1) / t.lastDim)).map (fun j =>
      (⟨t.shape.dropLast ++ [min t.lastDim (t.lastDim - j * t.lastDim)], t.dtype,
        ((chunkList t.lastDim t.data).map
          (fun r => (r.drop (j * t.lastDim)).take t.lastDim)).flatten⟩ : VTensor)) =
    [⟨t.shape.dropLast ++ [t.lastDim], t.dtype, t.data⟩]
  rw [hdiv, list_range_one, List.map_singleton]
  have hmin : min t.lastDim (t.lastDim - 0 * t.lastDim) = t.lastDim := by omega
  rw [hmin]
  have hmap : (chunkList t.lastDim t.data).map
      (fun r => (r.drop (0 * t.lastDim)).take t.lastDim) = chunkList t.lastDim t.data := by
    have hcong : ∀ r ∈ chunkList t.lastDim t.data,
        (r.drop (0 * t.lastDim)).take t.lastDim = id r := by
      intro r hr
      rw [Nat.zero_mul, List.drop_zero,
        List.take_of_length_le (chunkListAux_length_le t.lastDim t.data.length t.data r hr)]
      rfl
    rw [List.map_congr_left hcong, List.map_id]
  rw [hmap, chunkList_flatten t.lastDim h t.data]

/-- C7 counterexample: AllToAllSP2HP is a collective-communication wrapper
Cell of collective_primitives whose construct, at world size one, is not the
identity: on a tensor of shape 2 by 1 by 2 it returns a tensor of shape 2 by
2, so the shape is changed. -/
theorem allToAllSP2HP_not_identity_at_world_size_one :
    allToAllSP2HP_construct 1 (fun t => t) ⟨[2, 1, 2], Dtype.fp32, [1, 2, 3, 4]⟩ ≠
      ⟨[2, 1, 2], Dtype.fp32, [1, 2, 3, 4]⟩ ∧
    (allToAllSP2HP_construct 1 (fun t => t)
      ⟨[2, 1, 2], Dtype.fp32, [1, 2, 3, 4]⟩).shape = [2, 2] := by
  constructor
  · intro h
    have hs := congrArg VTensor.shape h
    revert hs
    decide
  · decide

/-- C7 amended: when the relevant communication group has world size one, the
construct methods of the pure collective wrapper cells named by the claim,
namely ReduceFromModelParallelRegion, GatherFromModelParallelRegion,
AllToAllEven and ScatterToSequenceParallelRegion, return the input tensor
with value and shape unchanged; the layout-repacking AllToAllSP2HP cell, by
contrast, preserves only the flattened payload, not the shape. -/
theorem collective_cells_identity_at_world_size_one :
    (∀ (f : VTensor → VTensor) (t : VTensor),
        reduceFromModelParallelRegion_construct 1 f t = t) ∧
    (∀ (f : VTensor → VTensor) (t : VTensor) (n : Nat) (rest : List Nat),
        t.shape = n :: rest → 0 < n → t.data.length = t.shape.prod →
        gatherFromModelParallelRegion_construct 1 f t = t) ∧
    (∀ (f : VTensor → VTensor) (t : VTensor),
        allToAllEven_construct 1 f t = t) ∧
    (∀ (rank : Nat) (t : VTensor),
        scatterToSequenceParallelRegion_construct 1 rank t = Except.ok t) ∧
    (∀ (f : VTensor → VTensor) (t : VTensor),
        0 < t.lastDim →
        (allToAllSP2HP_construct 1 f t).data = t.data) := by
  refine ⟨fun f t => rfl, ?_, fun f t => rfl, fun rank t => rfl, ?_⟩
  · intro f t n rest hshape hn hlen
    obtain ⟨sh, dt, da⟩ := t
    simp only at hshape hlen
    subst hshape
    have hdiv : (n + n - 1) / n = 1 := Nat.div_eq_of_lt_le (by omega) (by omega)
    have hlen2 : da.length = n * rest.prod := by
      rw [hlen]
      exact List.prod_cons
    unfold gatherFromModelParallelRegion_construct splitAxis0
    simp only [if_pos rfl]
    show catLastDim ((List.range ((n + n - 1) / n)).map fun j =>
        ⟨min n (n - j * n) :: rest, dt,
         (da.drop (j * (n * rest.prod))).take (n * rest.prod)⟩) =
      ⟨n :: rest, dt, da⟩
    rw [hdiv, list_range_one, List.map_singleton]
    have hmin : min n (n - 0 * n) = n := by omega
    rw [hmin, Nat.zero_mul, List.drop_zero, List.take_of_length_le (le_of_eq hlen2)]
    rfl
  · intro f t hlast
    have hlast2 : 0 < (reshape2d t).lastDim := hlast
    show (catAxis0 (splitLastDim (reshape2d t) ((reshape2d t).lastDim / 1))).data = t.data
    rw [Nat.div_one, splitLastDim_lastDim (reshape2d t) hlast2]
    simp [catAxis0, reshape2d]

/-- Witness for collective_cells_identity_at_world_size_one at concrete
tensors: a well-formed 2 by 3 tensor passes GatherFromModelParallelRegion
unchanged at world size one, and AllToAllSP2HP keeps its payload. -/
theorem collective_cells_identity_witness :
    reduceFromModelParallelRegion_construct 1 (fun t => t) ⟨[2], Dtype.fp16, [5]⟩ =
      ⟨[2], Dtype.fp16, [5]⟩ ∧
    gatherFromModelParallelRegion_construct 1 (fun t => t)
        ⟨[2, 3], Dtype.fp32, [1, 2, 3, 4, 5, 6]⟩ =
      ⟨[2, 3], Dtype.fp32, [1, 2, 3, 4, 5, 6]⟩ ∧
    allToAllEven_construct 1 (fun t => t) ⟨[2], Dtype.fp16, [5]⟩ = ⟨[2], Dtype.fp16, [5]⟩ ∧
    scatterToSequenceParallelRegion_construct 1 0 ⟨[2], Dtype.fp16, [5]⟩ =
      Except.ok ⟨[2], Dtype.fp16, [5]⟩ ∧
    (allToAllSP2HP_construct 1 (fun t => t) ⟨[2, 3], Dtype.fp32, [1, 2, 3, 4, 5, 6]⟩).data =
      (⟨[2, 3], Dtype.fp32, [1, 2, 3, 4, 5, 6]⟩ : VTensor).data :=
  ⟨collective_cells_identity_at_world_size_one.1 (fun t => t) ⟨[2], Dtype.fp16, [5]⟩,
   collective_cells_identity_at_world_size_one.2.1 (fun t => t)
     ⟨[2, 3], Dtype.fp32, [1, 2, 3, 4, 5, 6]⟩ 2 [3] rfl (by decide) (by decide),
   collective_cells_identity_at_world_size_one.2.2.1 (fun t => t) ⟨[2], Dtype.fp16, [5]⟩,
   collective_cells_identity_at_world_size_one.2.2.2.1 0 ⟨[2], Dtype.fp16, [5]⟩,
   collective_cells_identity_at_world_size_one.2.2.2.2 (fun t => t)
     ⟨[2, 3], Dtype.fp32, [1, 2, 3, 4, 5, 6]⟩ (by decide)⟩

/-- Helper: folding elementwise addition over lists of a common length
preserves the length of the accumulator. -/
theorem foldl_zipWith_length (l : Nat) :
    ∀ (ws : List (List ℚ)) (init : List ℚ), init.length = l →
      (∀ g ∈ ws, g.length = l) →
      (ws.foldl (fun acc g => List.zipWith (fun x y => x + y) acc g) init).length = l := by
  intro ws
  induction ws with
  | nil =>
    intro init hi _
    exact hi
  | cons g gs ih =>
    intro init hi hg
    show (gs.foldl (fun acc g => List.zipWith (fun x y => x + y) acc g)
      (List.zipWith (fun x y => x + y) init g)).length = l
    refine ih _ ?_ ?_
    · rw [List.length_zipWith, hi, hg g (by simp), Nat.min_self]
    · intro x hx
      exact hg x (by simp [hx])

/-- Helper: window sums of gradient lists of length l have length l. -/
theorem sumWindow_length (all : List (List ℚ)) (l a b : Nat)
    (hall : ∀ g ∈ all, g.length = l) : (sumWindow all l a b).length = l := by
  unfold sumWindow
  refine foldl_zipWith_length l _ _ (by simp) ?_
  intro g hg
  exact hall g (List.mem_of_mem_take (List.mem_of_mem_drop hg))

/-- Helper: an empty window sums to the zero gradient. -/
theorem sumWindow_empty (all : List (List ℚ)) (l a b : Nat) (h : b ≤ a) :
    sumWindow all l a b = List.replicate l 0 := by
  unfold sumWindow
  rw [List.drop_eq_nil_of_le]
  · rfl
  · rw [List.length_take]
    omega

/-- Helper: extending the window by its next micro-batch adds that gradient
elementwise. -/
theorem sumWindow_succ (all : List (List ℚ)) (l a k : Nat) (ha : a ≤ k)
    (hk : k < all.length) :
    sumWindow all l a (k + 1) =
      List.zipWith (fun x y => x + y) (sumWindow all l a k) (all.get ⟨k, hk⟩) := by
  unfold sumWindow
  rw [List.take_succ]
  have hgk : all[k]? = some (all.get ⟨k, hk⟩) := by
    rw [List.getElem?_eq_getElem hk]
    rfl
  rw [hgk]
  show ((all.take k ++ [all.get ⟨k, hk⟩]).drop a).foldl
      (fun acc g => List.zipWith (fun x y => x + y) acc g) (List.replicate l 0) = _
  rw [List.drop_append_eq_append_drop]
  have hsub : a - (all.take k).length = 0 := by
    rw [List.length_take]
    omega
  rw [hsub, List.drop_zero, List.foldl_append]
  rfl

/-- Helper: the successor of k either crosses a window boundary of size m or
advances the remainder by one. -/
theorem succ_mod_cases (m k : Nat) (hm : 0 < m) :
    ((k + 1) % m = 0 ∧ k % m = m - 1) ∨
      ((k + 1) % m = k % m + 1 ∧ k % m + 1 < m) := by
  have hlt : k % m < m := Nat.mod_lt k hm
  have hdm : m * (k / m) + k % m = k := Nat.div_add_mod k m
  by_cases h : k % m + 1 = m
  · left
    constructor
    · have he : k + 1 = m * (k / m) + m := by omega
      rw [he, Nat.mul_add_mod]
      exact Nat.mod_self m
    · omega
  · right
    have hlt2 : k % m + 1 < m := by omega
    constructor
    · have he : k + 1 = m * (k / m) + (k % m + 1) := by omega
      rw [he, Nat.mul_add_mod]
      exact Nat.mod_eq_of_lt hlt2
    · exact hlt2

/-- Helper: unfolding of one accumulator call on a state that has been
initialised and whose previous call returned (the inner accumulator is
cleared before adding). -/
theorem gradAccumulatorCall_unfold_tt (c a : Nat) (mo : Bool) (ig g : List ℚ) :
    gradAccumulatorCall ⟨c, a, mo, true, true, ig⟩ g =
      (let inner2 := List.zipWith (fun x y => x + y) (ig.map (fun _ => 0)) g
       if a = 0 then Except.error "ZeroDivisionError: integer modulo by zero"
       else if (c + 1) % a = 0 then
         Except.ok (some (if mo then inner2.map (fun x => x / (a : ℚ)) else inner2),
           ⟨c + 1, a, mo, true, true,
            if mo then inner2.map (fun x => x / (a : ℚ)) else inner2⟩)
       else Except.ok (none, ⟨c + 1, a, mo, true, false, inner2⟩)) := rfl

/-- Helper: unfolding of one accumulator call on a state that has been
initialised and is mid-window (no clearing). -/
theorem gradAccumulatorCall_unfold_tf (c a : Nat) (mo : Bool) (ig g : List ℚ) :
    gradAccumulatorCall ⟨c, a, mo, true, false, ig⟩ g =
      (let inner2 := List.zipWith (fun x y => x + y) ig g
       if a = 0 then Except.error "ZeroDivisionError: integer modulo by zero"
       else if (c + 1) % a = 0 then
         Except.ok (some (if mo then inner2.map (fun x => x / (a : ℚ)) else inner2),
           ⟨c + 1, a, mo, true, true,
            if mo then inner2.map (fun x => x / (a : ℚ)) else inner2⟩)
       else Except.ok (none, ⟨c + 1, a, mo, true, false, inner2⟩)) := rfl

/-- Helper: unfolding of the first accumulator call (the inner accumulator is
created as zeros like the gradients). -/
theorem gradAccumulatorCall_unfold_ff (c a : Nat) (mo : Bool) (ig g : List ℚ) :
    gradAccumulatorCall ⟨c, a, mo, false, false, ig⟩ g =
      (let inner2 := List.zipWith (fun x y => x + y) (g.map (fun _ => 0)) g
       if a = 0 then Except.error "ZeroDivisionError: integer modulo by zero"
       else if (c + 1) % a = 0 then
         Except.ok (some (if mo then inner2.map (fun x => x / (a : ℚ)) else inner2),
           ⟨c + 1, a, mo, true, true,
            if mo then inner2.map (fun x => x / (a : ℚ)) else inner2⟩)
       else Except.ok (none, ⟨c + 1, a, mo, true, false, inner2⟩)) := rfl

/-- Helper: one call of the accumulator from a reachable state consumes the
k-th micro-batch, returns the window value exactly at a boundary, and reaches
the successor reachable state. -/
theorem gradAccumulatorCall_step (m l : Nat) (hm : 0 < m) (mean : Bool)
    (all : List (List ℚ)) (hall : ∀ g ∈ all, g.length = l)
    (k : Nat) (st : GradAccumulator) (hinv : accInvariant m l mean all k st)
    (hk : k < all.length) :
    gradAccumulatorCall st (all.get ⟨k, hk⟩) =
      Except.ok
        (if (k + 1) % m = 0
         then some (accOutput mean m (sumWindow all l (k + 1 - m) (k + 1)))
         else none,
         ⟨k + 1, m, mean, true, decide ((k + 1) % m = 0),
          if (k + 1) % m = 0
          then accOutput mean m (sumWindow all l (k + 1 - m) (k + 1))
          else sumWindow all l (k + 1 - (k + 1) % m) (k + 1)⟩) := by
  unfold accInvariant at hinv
  rcases st with ⟨c, a2, mo, hi2, nc2, ig⟩
  obtain ⟨hc, ha, hmo, hhi, hlen, hnc, hig⟩ := hinv
  dsimp only at hc ha hmo hhi hlen hnc hig
  have hc2 := hc.symm
  have ha2 := ha.symm
  have hmo2 := hmo.symm
  subst hc2
  subst ha2
  subst hmo2
  have hg : (all.get ⟨k, hk⟩).length = l := hall _ (List.get_mem all k hk)
  have hmne : m ≠ 0 := by omega
  have hgmap : (all.get ⟨k, hk⟩).map (fun _ => (0 : ℚ)) = List.replicate l 0 := by
    rw [List.map_const', hg]
  by_cases hk0 : 0 < k
  · have hhi2 : hi2 = true := by
      rw [hhi]
      simp [hk0]
    have hlen2 : ig.length = l := hlen hk0
    have higmap : ig.map (fun _ => (0 : ℚ)) = List.replicate l 0 := by
      rw [List.map_const', hlen2]
    subst hhi2
    by_cases hmod : k % m = 0
    · have hnc2 : nc2 = true := by
        rw [hnc]
        simp [hk0, hmod]
      subst hnc2
      rw [gradAccumulatorCall_unfold_tt]
      have hinner2 : List.zipWith (fun x y => x + y) (ig.map (fun _ => 0))
          (all.get ⟨k, hk⟩) = sumWindow all l (k - k % m) (k + 1) := by
        rw [higmap, hmod, Nat.sub_zero,
          sumWindow_succ all l k k (le_refl k) hk,
          sumWindow_empty all l k k (le_refl k)]
      show (if m = 0 then Except.error "ZeroDivisionError: integer modulo by zero"
        else if (k + 1) % m = 0 then _ else _) = _
      rw [if_neg hmne]
      by_cases hb : (k + 1) % m = 0
      · rw [if_pos hb, if_pos hb, if_pos hb]
        have hstart : k - k % m = k + 1 - m := by
          rcases succ_mod_cases m k hm with ⟨_, h2⟩ | ⟨h1, _⟩
          · have hle := Nat.mod_le k m
            omega
          · rw [h1] at hb
            omega
        rw [hinner2, hstart, decide_eq_true hb]
        rfl
      · rw [if_neg hb, if_neg hb, if_neg hb]
        have hstart : k - k % m = k + 1 - (k + 1) % m := by
          rcases succ_mod_cases m k hm with ⟨h1, _⟩ | ⟨h1, _⟩
          · exact absurd h1 hb
          · have hle := Nat.mod_le k m
            omega
        rw [hinner2, hstart, decide_eq_false hb]
    · have hnc2 : nc2 = false := by
        rw [hnc]
        simp [hmod]
      subst hnc2
      rw [gradAccumulatorCall_unfold_tf]
      have hwin : ig = sumWindow all l (k - k % m) k := hig hk0 hmod
      have hinner2 : List.zipWith (fun x y => x + y) ig (all.get ⟨k, hk⟩) =
          sumWindow all l (k - k % m) (k + 1) := by
        rw [hwin, sumWindow_succ all l (k - k % m) k (Nat.sub_le k (k % m)) hk]
      show (if m = 0 then Except.error "ZeroDivisionError: integer modulo by zero"
        else if (k + 1) % m = 0 then _ else _) = _
      rw [if_neg hmne]
      by_cases hb : (k + 1) % m = 0
      · rw [if_pos hb, if_pos hb, if_pos hb]
        have hstart : k - k % m = k + 1 - m := by
          rcases succ_mod_cases m k hm with ⟨_, h2⟩ | ⟨h1, _⟩
          · have hle := Nat.mod_le k m
            omega
          · rw [h1] at hb
            omega
        rw [hinner2, hstart, decide_eq_true hb]
        rfl
      · rw [if_neg hb, if_neg hb, if_neg hb]
        have hstart : k - k % m = k + 1 - (k + 1) % m := by
          rcases succ_mod_cases m k hm with ⟨h1, _⟩ | ⟨h1, _⟩
          · exact absurd h1 hb
          · have hle := Nat.mod_le k m
            omega
        rw [hinner2, hstart, decide_eq_false hb]
  · have hkz : k = 0 := by omega
    subst hkz
    have hhi2 : hi2 = false := by
      rw [hhi]
      decide
    have hnc2 : nc2 = false := by
      rw [hnc]
      simp
    subst hhi2
    subst hnc2
    rw [gradAccumulatorCall_unfold_ff]
    have hinner2 : List.zipWith (fun x y => x + y)
        ((all.get ⟨0, hk⟩).map (fun _ => 0)) (all.get ⟨0, hk⟩) =
        sumWindow all l 0 1 := by
      rw [hgmap, sumWindow_succ all l 0 0 (le_refl 0) hk,
        sumWindow_empty all l 0 0 (le_refl 0)]
    show (if m = 0 then Except.error "ZeroDivisionError: integer modulo by zero"
      else if (0 + 1) % m = 0 then _ else _) = _
    rw [if_neg hmne]
    have h0m : 0 % m = 0 := Nat.zero_mod m
    by_cases hb : (0 + 1) % m = 0
    · rw [if_pos hb, if_pos hb, if_pos hb]
      have hm1 : m = 1 := by
        rcases succ_mod_cases m 0 hm with ⟨_, h2⟩ | ⟨h1, _⟩
        · omega
        · rw [h1, h0m] at hb
          omega
      rw [hinner2, decide_eq_true hb, hm1]
      rfl
    · rw [if_neg hb, if_neg hb, if_neg hb]
      have hstart : sumWindow all l 0 1 = sumWindow all l (0 + 1 - (0 + 1) % m) (0 + 1) := by
        rcases succ_mod_cases m 0 hm with ⟨h1, _⟩ | ⟨h1, _⟩
        · exact absurd h1 hb
        · rw [h1, h0m]
      rw [hinner2, hstart, decide_eq_false hb]

/-- Helper: the state reached by one call from a reachable state is again
reachable. -/
theorem accInvariant_next (m l : Nat) (_hm : 0 < m) (mean : Bool)
    (all : List (List ℚ)) (hall : ∀ g ∈ all, g.length = l) (k : Nat) :
    accInvariant m l mean all (k + 1)
      ⟨k + 1, m, mean, true, decide ((k + 1) % m = 0),
       if (k + 1) % m = 0
       then accOutput mean m (sumWindow all l (k + 1 - m) (k + 1))
       else sumWindow all l (k + 1 - (k + 1) % m) (k + 1)⟩ := by
  unfold accInvariant
  refine ⟨rfl, rfl, rfl, by simp, ?_, by simp, ?_⟩
  · intro _
    by_cases hb : (k + 1) % m = 0
    · rw [if_pos hb]
      show (accOutput mean m (sumWindow all l (k + 1 - m) (k + 1))).length = l
      unfold accOutput
      by_cases hmean : mean = true
      · rw [if_pos hmean, List.length_map]
        exact sumWindow_length all l _ _ hall
      · rw [if_neg hmean]
        exact sumWindow_length all l _ _ hall
    · rw [if_neg hb]
      show (sumWindow all l (k + 1 - (k + 1) % m) (k + 1)).length = l
      exact sumWindow_length all l _ _ hall
  · intro _ hmod
    show (if (k + 1) % m = 0 then _ else _) = _
    rw [if_neg hmod]

/-- Helper: the initial accumulator state is reachable after zero calls. -/
theorem accInvariant_zero (m l : Nat) (mean : Bool) (all : List (List ℚ)) :
    accInvariant m l mean all 0 ⟨0, m, mean, false, false, []⟩ := by
  unfold accInvariant
  refine ⟨rfl, rfl, rfl, rfl, ?_, by simp, ?_⟩
  · intro h
    cases h
  · intro h
    cases h

/-- Helper: running the accumulator over the micro-batches remaining after k
calls succeeds and produces exactly the boundary outputs. -/
theorem gradAccumulatorRun_drop (m l : Nat) (hm : 0 < m) (mean : Bool)
    (all : List (List ℚ)) (hall : ∀ g ∈ all, g.length = l) :
    ∀ (n k : Nat) (st : GradAccumulator), all.length - k = n →
      accInvariant m l mean all k st →
      ∃ (os : List (Option (List ℚ))) (stF : GradAccumulator),
        gradAccumulatorRun st (all.drop k) = Except.ok (os, stF) ∧
        os.length = all.length - k ∧
        ∀ (i : Nat) (hi : i < os.length),
          os.get ⟨i, hi⟩ =
            (if (k + i + 1) % m = 0
             then some (accOutput mean m (sumWindow all l (k + i + 1 - m) (k + i + 1)))
             else none) := by
  intro n
  induction n with
  | zero =>
    intro k st hn _
    have hdrop : all.drop k = [] := List.drop_eq_nil_of_le (by omega)
    refine ⟨[], st, ?_, ?_, ?_⟩
    · rw [hdrop]
      rfl
    · simp
      omega
    · intro i hi
      exact absurd hi (by simp)
  | succ n ih =>
    intro k st hn hinv
    have hklt : k < all.length := by omega
    have hdrop : all.drop k = all.get ⟨k, hklt⟩ :: all.drop (k + 1) := by
      rw [List.drop_eq_getElem_cons hklt]
      rfl
    have hstep := gradAccumulatorCall_step m l hm mean all hall k st hinv hklt
    obtain ⟨os, stF, hrun, hlenos, hout⟩ :=
      ih (k + 1)
        ⟨k + 1, m, mean, true, decide ((k + 1) % m = 0),
         if (k + 1) % m = 0
         then accOutput mean m (sumWindow all l (k + 1 - m) (k + 1))
         else sumWindow all l (k + 1 - (k + 1) % m) (k + 1)⟩
        (by omega) (accInvariant_next m l hm mean all hall k)
    refine ⟨(if (k + 1) % m = 0
             then some (accOutput mean m (sumWindow all l (k + 1 - m) (k + 1)))
             else none) :: os, stF, ?_, ?_, ?_⟩
    · rw [hdrop]
      simp only [gradAccumulatorRun]
      rw [hstep]
      dsimp only
      rw [hrun]
    · simp only [List.length_cons, hlenos]
      omega
    · intro i hi
      match i with
      | 0 =>
        show (if (k + 1) % m = 0
              then some (accOutput mean m (sumWindow all l (k + 1 - m) (k + 1)))
              else none) =
          (if (k + 0 + 1) % m = 0
           then some (accOutput mean m (sumWindow all l (k + 0 + 1 - m) (k + 0 + 1)))
           else none)
        rfl
      | j + 1 =>
        have hj : j < os.length := by
          simp only [List.length_cons] at hi
          omega
        have hshift : k + (j + 1) + 1 = k + 1 + j + 1 := by omega
        show os.get ⟨j, hj⟩ = _
        rw [hout j hj, hshift]

/-- C9: GradAccumulator.__call__ is total for every micro_batch_num of at
least one: a whole run succeeds, the n-th call returns the accumulated
window gradients (divided elementwise by micro_batch_num when op is mean)
exactly when n is a multiple of micro_batch_num, and returns None otherwise;
yet the constructor accepts micro_batch_num zero, since only non-negativity
is checked, and in that state every call raises ZeroDivisionError at the
counter modulo. -/
theorem gradAccumulator_spec :
    (∀ (m : Nat), 1 ≤ m → ∀ (mean : Bool),
        gradAccumulatorInit (m : Int) (if mean then "mean" else "sum") =
          Except.ok ⟨0, m, mean, false, false, []⟩) ∧
    (∀ (m l : Nat), 0 < m → ∀ (mean : Bool) (all : List (List ℚ)),
        (∀ g ∈ all, g.length = l) →
        ∃ (os : List (Option (List ℚ))) (stF : GradAccumulator),
          gradAccumulatorRun ⟨0, m, mean, false, false, []⟩ all = Except.ok (os, stF) ∧
          os.length = all.length ∧
          ∀ (i : Nat) (hi : i < os.length),
            os.get ⟨i, hi⟩ =
              (if (i + 1) % m = 0
               then some (accOutput mean m (sumWindow all l (i + 1 - m) (i + 1)))
               else none)) ∧
    gradAccumulatorInit 0 "mean" = Except.ok ⟨0, 0, true, false, false, []⟩ ∧
    (∀ (st : GradAccumulator) (g : List ℚ), st.accumulate_step = 0 →
        gradAccumulatorCall st g =
          Except.error "ZeroDivisionError: integer modulo by zero") := by
  refine ⟨?_, ?_, ?_, ?_⟩
  · intro m hm mean
    have hneg : ¬ ((m : Int) < 0) := by omega
    cases mean
    · show gradAccumulatorInit (m : Int) "sum" = _
      unfold gradAccumulatorInit
      rw [if_neg hneg, if_neg (by simp)]
      simp
    · show gradAccumulatorInit (m : Int) "mean" = _
      unfold gradAccumulatorInit
      rw [if_neg hneg, if_neg (by simp)]
      simp
  · intro m l hm mean all hall
    obtain ⟨os, stF, hrun, hlen, hout⟩ :=
      gradAccumulatorRun_drop m l hm mean all hall all.length 0
        ⟨0, m, mean, false, false, []⟩ (by omega) (accInvariant_zero m l mean all)
    rw [List.drop_zero] at hrun
    refine ⟨os, stF, hrun, by omega, ?_⟩
    intro i hi
    rw [hout i hi]
    have h1 : 0 + i + 1 = i + 1 := by omega
    rw [h1]
  · rfl
  · intro st g hstep
    rcases st with ⟨c, a, mo, hi, nc, ig⟩
    dsimp only at hstep
    subst hstep
    rfl

/-- Witness for gradAccumulator_spec: a mean accumulator with step two over
four singleton micro-batches emits outputs at the second and fourth calls
only, and a zero-step accumulator errors on any call. -/
theorem gradAccumulator_spec_witness :
    gradAccumulatorInit ((2 : Nat) : Int) (if true then "mean" else "sum") =
      Except.ok ⟨0, 2, true, false, false, []⟩ ∧
    (∃ (os : List (Option (List ℚ))) (stF : GradAccumulator),
      gradAccumulatorRun ⟨0, 2, true, false, false, []⟩ [[1], [3], [5], [7]] =
        Except.ok (os, stF) ∧
      os.length = ([[1], [3], [5], [7]] : List (List ℚ)).length ∧
      ∀ (i : Nat) (hi : i < os.length),
        os.get ⟨i, hi⟩ =
          (if (i + 1) % 2 = 0
           then some (accOutput true 2 (sumWindow [[1], [3], [5], [7]] 1 (i + 1 - 2) (i + 1)))
           else none)) ∧
    gradAccumulatorCall ⟨5, 0, true, true, false, [4]⟩ [9] =
      Except.error "ZeroDivisionError: integer modulo by zero" :=
  ⟨gradAccumulator_spec.1 2 (by decide) true,
   gradAccumulator_spec.2.1 2 1 (by decide) true [[1], [3], [5], [7]] (by decide),
   gradAccumulator_spec.2.2.2 ⟨5, 0, true, true, false, [4]⟩ [9] rfl⟩

/-- C10: for every gradient list, ClipGlobalNorm.construct returns the global
l2 norm computed from the pre-clip gradients (the duplicate-filtered inputs,
before any scaling), and it scales all gradients by
clip_value / (total_norm + 1e-6) if and only if that coefficient is strictly
below one, leaving every gradient unchanged otherwise; the returned norm is
the pre-clip norm in both cases. -/
theorem clipGlobalNorm_construct_spec (c : ClipGlobalNorm) (grads : List (List ℝ))
    (hl2 : c.norm_type = "l2") :
    ∃ total_norm : ℝ,
      get_grad_norm_fp32 c (get_grads c grads) = Except.ok total_norm ∧
      c.construct grads =
        Except.ok
          ((if c.clip_value / (total_norm + 1.0e-6) < 1.0
            then grads.map (fun g =>
              g.map (fun x => x * (c.clip_value / (total_norm + 1.0e-6))))
            else grads), total_norm) := by
  have hnorm : get_grad_norm_fp32 c (get_grads c grads) =
      Except.ok (Real.sqrt
        (if 1 < c.group_size then
          (((get_grads c grads).map (fun g => (g.map (fun x => x * x)).sum)).sum +
            c.other_ranks_square)
         else ((get_grads c grads).map (fun g => (g.map (fun x => x * x)).sum)).sum)) := by
    unfold get_grad_norm_fp32
    rw [if_pos hl2]
  refine ⟨_, hnorm, ?_⟩
  show ((match get_grad_norm_fp32 c (get_grads c grads) with
    | Except.error e => Except.error e
    | Except.ok total_norm =>
      if c.clip_value / (total_norm + 1.0e-6) < 1.0 then
        Except.ok (grads.map (fun (g : List ℝ) =>
          g.map (fun x => x * (c.clip_value / (total_norm + 1.0e-6)))), total_norm)
      else
        Except.ok (grads, total_norm)) : Except String (List (List ℝ) × ℝ)) = _
  rw [hnorm]
  dsimp only
  by_cases hcoef : c.clip_value / (Real.sqrt
      (if 1 < c.group_size then
        (((get_grads c grads).map (fun g => (g.map (fun x => x * x)).sum)).sum +
          c.other_ranks_square)
       else ((get_grads c grads).map (fun g => (g.map (fun x => x * x)).sum)).sum) +
      1.0e-6) < 1.0
  · rw [if_pos hcoef, if_pos hcoef]
  · rw [if_neg hcoef, if_neg hcoef]

/-- Witness for clipGlobalNorm_construct_spec at a concrete cell and gradient
list. -/
theorem clipGlobalNorm_construct_spec_witness :
    ∃ total_norm : ℝ,
      get_grad_norm_fp32 ⟨[⟨String.toList "w"⟩], 1, "l2", 0, 1, 0⟩
          (get_grads ⟨[⟨String.toList "w"⟩], 1, "l2", 0, 1, 0⟩ [[3, 4]]) =
        Except.ok total_norm ∧
      ClipGlobalNorm.construct ⟨[⟨String.toList "w"⟩], 1, "l2", 0, 1, 0⟩ [[3, 4]] =
        Except.ok
          ((if (1 : ℝ) / (total_norm + 1.0e-6) < 1.0
            then ([[3, 4]] : List (List ℝ)).map (fun (g : List ℝ) =>
              g.map (fun x => x * ((1 : ℝ) / (total_norm + 1.0e-6))))
            else [[3, 4]]), total_norm) :=
  clipGlobalNorm_construct_spec ⟨[⟨String.toList "w"⟩], 1, "l2", 0, 1, 0⟩ [[3, 4]] rfl

end Mindformers
